import Mathlib

/-!
# Verification of the HK industry-analysis classifier core

Shallow embedding of the classifier / scorer / aggregator core of
`industry_analysis_framework.py` and of the mock classifier in
`setup_and_test.py`, with theorems settling the specification claims.

Scores are rational numbers (the Python code divides small integer counts,
and the spec reads the confidences as real numbers in [0,1]).

The NLTK pieces (word_tokenize, the English stop-word set, PorterStemmer)
are third-party library calls, not code of this repository; the embedding
is parameterized over them (structure `Analyzer`), and a concrete instance
modelled from the spec (§4.1) is provided for the end-to-end claims.
-/

namespace CSD

/-- Python's substring test `a in b` on lists of characters:
`true` iff `needle` occurs contiguously inside `haystack`. -/
def infixB (needle : List Char) : List Char → Bool
  | [] => needle.isEmpty
  | c :: rest => needle.isPrefixOf (c :: rest) || infixB needle rest

/-- Python's substring test `a in b` on strings. -/
def pyIn (a b : String) : Bool := infixB a.data b.data

/-- Python's `str.isalpha()`: non-empty and every character alphabetic. -/
def pyIsalpha (s : String) : Bool := !s.data.isEmpty && s.data.all Char.isAlpha

/-- Python's `str.lower()` (character-wise, which agrees with it on the
ASCII text of this repository). -/
def pyLower (s : String) : String := String.mk (s.data.map Char.toLower)

/-- `HKIndustryAnalyzer.medical_keywords` (industry_analysis_framework.py,
lines 50-56), verbatim. -/
def medical_keywords : List String :=
  ["biomed", "clinical trial", "pharma research", "biotech", "medtech",
   "pharmaceutical", "biotechnology", "medical device", "clinical research",
   "drug development", "vaccine", "diagnostic", "therapeutics", "genomics",
   "immunology", "oncology", "cardiology", "neurology", "dermatology",
   "clinical studies", "medical innovation", "health technology", "biopharma"]

/-- `HKIndustryAnalyzer.patent_keywords` (industry_analysis_framework.py,
lines 58-63), verbatim. -/
def patent_keywords : List String :=
  ["patent licensing", "IP brokerage", "technology transfer", "intellectual property",
   "patent valuation", "IP consulting", "licensing specialist", "patent attorney",
   "IP law", "patent agent", "technology licensing", "IP management",
   "patent portfolio", "IP commercialization", "patent prosecution", "IP strategy"]

/-- The external NLP collaborators held by `HKIndustryAnalyzer`:
`PorterStemmer.stem`, `nltk.word_tokenize` and the NLTK English stop-word
set are library code outside this repository, so the embedding takes them
as parameters. -/
structure Analyzer where
  stem : String → String
  wordTokenize : String → List String
  stopwords : List String

/-- `HKIndustryAnalyzer._preprocess_text` (lines 325-350), non-exception
path: tokenize, keep alphabetic non-stop-word tokens longer than 2
characters, and stem each survivor. -/
def preprocess_text (a : Analyzer) (text : String) : List String :=
  ((a.wordTokenize text).filter
      (fun token => pyIsalpha token && !a.stopwords.contains token
        && token.length > 2)).map a.stem

/-- `HKIndustryAnalyzer._calculate_keyword_score` (lines 352-367):
0 when either list is empty; otherwise stem the lowered keywords, count
(via the inner loop with `break`, i.e. at most once per token) the tokens
that contain or are contained in some stemmed keyword, and divide by the
number of tokens. -/
def calculate_keyword_score (stem : String → String)
    (processed_text : List String) (keywords : List String) : ℚ :=
  if processed_text.isEmpty || keywords.isEmpty then 0
  else
    let stemmed_keywords := keywords.map (fun keyword => stem (pyLower keyword))
    let num_matches := processed_text.foldl
      (fun acc token =>
        if stemmed_keywords.any (fun keyword =>
            pyIn keyword token || pyIn token keyword)
        then acc + 1 else acc) 0
    (num_matches : ℚ) / (processed_text.length : ℚ)

/-- `HKIndustryAnalyzer.classify_industry` (lines 302-323). A Python
argument that is `None` or `""` is falsy, hence the `Option String` input:
`none` models `None`. THRESHOLD is the literal `0.3` of the source. -/
def classify_industry (a : Analyzer) (description : Option String) :
    String × ℚ :=
  match description with
  | none => ("unknown", 0)
  | some d =>
    if d = "" then ("unknown", 0)
    else
      let processed_text := preprocess_text a (pyLower d)
      let medical_score :=
        calculate_keyword_score a.stem processed_text medical_keywords
      let patent_score :=
        calculate_keyword_score a.stem processed_text patent_keywords
      if medical_score > patent_score ∧ medical_score > 3/10 then
        ("medical_rd", medical_score)
      else if patent_score > medical_score ∧ patent_score > 3/10 then
        ("patent_brokerage", patent_score)
      else
        ("other", max medical_score patent_score)

/-- The medical score `classify_industry` computes for a non-empty
description `d`. -/
def medicalScore (a : Analyzer) (d : String) : ℚ :=
  calculate_keyword_score a.stem (preprocess_text a (pyLower d)) medical_keywords

/-- The patent score `classify_industry` computes for a non-empty
description `d`. -/
def patentScore (a : Analyzer) (d : String) : ℚ :=
  calculate_keyword_score a.stem (preprocess_text a (pyLower d)) patent_keywords

/-- `MockIndustryClassifier.medical_keywords` (setup_and_test.py,
lines 76-79), verbatim. -/
def mock_medical_keywords : List String :=
  ["biomed", "clinical", "pharma", "biotech", "medical",
   "diagnostic", "therapeutic", "vaccine", "drug", "clinical trial"]

/-- `MockIndustryClassifier.patent_keywords` (setup_and_test.py,
lines 80-83), verbatim. -/
def mock_patent_keywords : List String :=
  ["patent", "intellectual property", "ip", "licensing",
   "technology transfer", "brokerage", "valuation"]

/-- Mock medical score (setup_and_test.py, lines 92 and 95): number of
medical keywords occurring in the lowered description, divided by the
number of medical keywords. -/
def mock_medical_score (d : String) : ℚ :=
  ((mock_medical_keywords.countP (fun keyword => pyIn keyword (pyLower d)) : ℚ)
    / (mock_medical_keywords.length : ℚ))

/-- Mock patent score (setup_and_test.py, lines 93 and 96). -/
def mock_patent_score (d : String) : ℚ :=
  ((mock_patent_keywords.countP (fun keyword => pyIn keyword (pyLower d)) : ℚ)
    / (mock_patent_keywords.length : ℚ))

/-- `MockIndustryClassifier.classify_industry` (setup_and_test.py,
lines 85-103). THRESHOLD is the literal `0.1` of the source. -/
def mock_classify_industry (description : Option String) : String × ℚ :=
  match description with
  | none => ("unknown", 0)
  | some d =>
    if d = "" then ("unknown", 0)
    else
      let medical_score := mock_medical_score d
      let patent_score := mock_patent_score d
      if medical_score > patent_score ∧ medical_score > 1/10 then
        ("medical_rd", medical_score)
      else if patent_score > medical_score ∧ patent_score > 1/10 then
        ("patent_brokerage", patent_score)
      else
        ("other", max medical_score patent_score)

/-- Modelled from the spec: the fixed English stop-word set of §4.1 step 4.
The NLTK stop-word corpus is library data outside this repository; the spec
only requires "a fixed stop-word set for the working language". -/
def spec_stopwords : List String :=
  ["a", "an", "and", "are", "as", "at", "be", "but", "by", "for", "from",
   "had", "has", "have", "he", "her", "his", "if", "in", "into", "is", "it",
   "its", "no", "not", "of", "on", "or", "she", "so", "that", "the", "their",
   "then", "there", "these", "they", "this", "to", "was", "were", "will",
   "with"]

/-- Modelled from the spec: §4.1 step 5 asks for "a deterministic stemming
or lemmatization rule (either is acceptable)" in place of NLTK's
PorterStemmer, which is library code outside this repository. This rule
strips a trailing "ing" from long words and a trailing plural "s". -/
def spec_stem (t : String) : String :=
  if List.isSuffixOf ['i', 'n', 'g'] t.data && t.data.length > 5 then
    String.mk (t.data.take (t.data.length - 3))
  else if List.isSuffixOf ['s'] t.data && !List.isSuffixOf ['s', 's'] t.data then
    String.mk (t.data.take (t.data.length - 1))
  else t

/-- Splitting a character list on whitespace (empty fragments between
consecutive separators included, as with Python's `str.split` on a single
separator; the later alphabetic filter discards them). -/
def splitWhitespace (acc : List Char) : List Char → List String
  | [] => [String.mk acc.reverse]
  | c :: rest =>
    if c.isWhitespace then String.mk acc.reverse :: splitWhitespace [] rest
    else splitWhitespace (c :: acc) rest

/-- Modelled from the spec: §4.1 steps 2-3 in place of `nltk.word_tokenize`,
which is library code outside this repository: drop characters that are
neither letters nor whitespace, then split on whitespace. -/
def spec_word_tokenize (text : String) : List String :=
  splitWhitespace [] (text.data.filter (fun c => c.isAlpha || c.isWhitespace))

/-- The analyzer instantiated with the spec-modelled NLP collaborators. -/
def specAnalyzer : Analyzer :=
  { stem := spec_stem, wordTokenize := spec_word_tokenize,
    stopwords := spec_stopwords }

/-- A company record (§3 CompanyRecord): the dictionary fields touched by
the classifier core, aggregator and market-gap pipeline; `extra` carries
the remaining ad hoc fields (website, employees, founded, ...). -/
structure CompanyRecord where
  name : String
  description : Option String
  business_nature : Option String
  location : Option String
  classification : Option String
  confidence : Option ℚ
  extra : List (String × String)
deriving DecidableEq, Repr

/-- `distribution[key] = distribution.get(key, 0) + 1` on an
insertion-ordered dictionary (industry_analysis_framework.py, line 428). -/
def dictIncr : List (String × Nat) → String → List (String × Nat)
  | [], key => [(key, 1)]
  | (k, v) :: rest, key =>
    if k = key then (k, v + 1) :: rest else (k, v) :: dictIncr rest key

/-- `d.get(key, 0)` on the modelled dictionary. -/
def lookupCount : List (String × Nat) → String → Nat
  | [], _ => 0
  | (k, v) :: rest, key => if k = key then v else lookupCount rest key

/-- `HKIndustryAnalyzer._analyze_industry_distribution` (lines 423-430):
count the records by `classification` (default "unknown"). -/
def analyze_industry_distribution (companies : List CompanyRecord) :
    List (String × Nat) :=
  companies.foldl
    (fun distribution company =>
      dictIncr distribution (company.classification.getD "unknown")) []

/-- The inner-dictionary update of
`HKIndustryAnalyzer._analyze_geographical_distribution` (lines 440-443):
insert an empty inner dictionary for a new location, then increment the
classification count inside it. -/
def dictIncr2 : List (String × List (String × Nat)) → String → String →
    List (String × List (String × Nat))
  | [], loc, cls => [(loc, dictIncr [] cls)]
  | (l, inner) :: rest, loc, cls =>
    if l = loc then (l, dictIncr inner cls) :: rest
    else (l, inner) :: dictIncr2 rest loc cls

/-- Lookup of a location's inner dictionary (empty when absent). -/
def lookupDist : List (String × List (String × Nat)) → String →
    List (String × Nat)
  | [], _ => []
  | (l, inner) :: rest, loc => if l = loc then inner else lookupDist rest loc

/-- `HKIndustryAnalyzer._analyze_geographical_distribution` (lines 432-445):
count the records by (`location` default "Unknown", `classification`
default "unknown"). -/
def analyze_geographical_distribution (companies : List CompanyRecord) :
    List (String × List (String × Nat)) :=
  companies.foldl
    (fun distribution company =>
      dictIncr2 distribution (company.location.getD "Unknown")
        (company.classification.getD "unknown")) []

/-- The text `analyze_market_gaps` classifies for a record (line 394):
`company.get('description', '') + ' ' + company.get('business_nature', '')`. -/
def combined_description (company : CompanyRecord) : String :=
  company.description.getD "" ++ " " ++ company.business_nature.getD ""

/-- The per-record body of the classification loop of
`HKIndustryAnalyzer.analyze_market_gaps` (lines 393-399): classify the
combined text and set the `classification` and `confidence` fields. -/
def attach_classification (a : Analyzer) (company : CompanyRecord) :
    CompanyRecord :=
  let result := classify_industry a (some (combined_description company))
  { company with classification := some result.1,
                 confidence := some result.2 }

/-- The classification loop of `HKIndustryAnalyzer.analyze_market_gaps`
over the flattened record list (lines 392-399). -/
def analyze_market_gaps_classify (a : Analyzer)
    (all_companies : List CompanyRecord) : List CompanyRecord :=
  all_companies.map (attach_classification a)

/-- The record fields `analyze_market_gaps` does not write. -/
def frameFields (company : CompanyRecord) :
    String × Option String × Option String × Option String ×
      List (String × String) :=
  (company.name, company.description, company.business_nature,
   company.location, company.extra)

/-- A token matched by some keyword of the list (under the scorer's
stem-the-lowered-keyword normalization and two-way substring test). -/
def token_match (stem : String → String) (keywords : List String)
    (token : String) : Bool :=
  (keywords.map (fun keyword => stem (pyLower keyword))).any
    (fun keyword => pyIn keyword token || pyIn token keyword)

theorem foldl_if_count {α : Type} (p : α → Bool) (l : List α) (n : ℚ) :
    l.foldl (fun acc t => if p t then acc + 1 else acc) n
      = n + (l.countP p : ℚ) := by
  induction l generalizing n with
  | nil => simp
  | cons head tail ih =>
    by_cases h : p head = true
    · simp [List.countP_cons, h, ih]
      ring
    · simp [List.countP_cons, h, ih]

theorem calculate_keyword_score_eq (stem : String → String)
    (toks kws : List String) :
    calculate_keyword_score stem toks kws =
      if toks.isEmpty || kws.isEmpty then 0
      else (toks.countP (token_match stem kws) : ℚ) / (toks.length : ℚ) := by
  unfold calculate_keyword_score
  by_cases h : (toks.isEmpty || kws.isEmpty) = true
  · rw [if_pos h, if_pos h]
  · rw [if_neg h, if_neg h]
    dsimp only
    rw [foldl_if_count (fun token =>
      (List.map (fun keyword => stem (pyLower keyword)) kws).any fun keyword =>
        pyIn keyword token || pyIn token keyword) toks 0]
    rw [zero_add]
    rfl

theorem calculate_keyword_score_nonneg (stem : String → String)
    (toks kws : List String) : 0 ≤ calculate_keyword_score stem toks kws := by
  rw [calculate_keyword_score_eq]
  by_cases h : (toks.isEmpty || kws.isEmpty) = true
  · simp [h]
  · rw [if_neg h]
    positivity

theorem calculate_keyword_score_le_one (stem : String → String)
    (toks kws : List String) : calculate_keyword_score stem toks kws ≤ 1 := by
  rw [calculate_keyword_score_eq]
  by_cases h : (toks.isEmpty || kws.isEmpty) = true
  · simp [h]
  · rw [if_neg h]
    have hne : toks ≠ [] := by
      intro hnil
      simp [hnil] at h
    have hlen : (0 : ℚ) < (toks.length : ℚ) := by
      exact_mod_cast List.length_pos.mpr hne
    rw [div_le_one hlen]
    exact_mod_cast List.countP_le_length (token_match stem kws)

theorem classify_industry_some_eq (a : Analyzer) (d : String) (hd : d ≠ "") :
    classify_industry a (some d) =
      if medicalScore a d > patentScore a d ∧ medicalScore a d > 3/10 then
        ("medical_rd", medicalScore a d)
      else if patentScore a d > medicalScore a d ∧ patentScore a d > 3/10 then
        ("patent_brokerage", patentScore a d)
      else ("other", max (medicalScore a d) (patentScore a d)) := by
  simp [classify_industry, medicalScore, patentScore, hd]

theorem classify_industry_label_mem (a : Analyzer) (d : String) (hd : d ≠ "") :
    (classify_industry a (some d)).1 ∈
      (["medical_rd", "patent_brokerage", "other"] : List String) := by
  rw [classify_industry_some_eq a d hd]
  split_ifs <;> simp

/-- `mock_classify_industry` on a non-empty string, phrased through the two
mock scores. -/
theorem mock_classify_industry_some_eq (d : String) (hd : d ≠ "") :
    mock_classify_industry (some d) =
      if mock_medical_score d > mock_patent_score d
          ∧ mock_medical_score d > 1/10 then
        ("medical_rd", mock_medical_score d)
      else if mock_patent_score d > mock_medical_score d
          ∧ mock_patent_score d > 1/10 then
        ("patent_brokerage", mock_patent_score d)
      else ("other", max (mock_medical_score d) (mock_patent_score d)) := by
  simp [mock_classify_industry, hd]

/-- Whether a (possibly absent) description is falsy in Python
(`None` or the empty string). -/
def isEmptyDesc (description : Option String) : Bool :=
  match description with
  | none => true
  | some d => d = ""

/-- C2: for every input description, the confidence returned by
`classify_industry` is the maximum of the medical and patent scores
computed for that description (0 when the description is empty or absent),
the label is "unknown" exactly when the description is empty or absent,
and the label always lies in the closed set
{"unknown", "medical_rd", "patent_brokerage", "other"}. -/
theorem classify_industry_confidence_label_invariant (a : Analyzer)
    (description : Option String) :
    ((classify_industry a description).2 =
      if isEmptyDesc description then 0
      else max (medicalScore a (description.getD ""))
        (patentScore a (description.getD "")))
    ∧ ((classify_industry a description).1 = "unknown" ↔
      isEmptyDesc description = true)
    ∧ (classify_industry a description).1 ∈
      (["unknown", "medical_rd", "patent_brokerage", "other"] : List String) := by
  match description with
  | none => simp [classify_industry, isEmptyDesc]
  | some d =>
    by_cases hd : d = ""
    · simp [classify_industry, isEmptyDesc, hd]
    · have hds : isEmptyDesc (some d) = false := by simp [isEmptyDesc, hd]
      rw [classify_industry_some_eq a d hd]
      simp only [hds, Bool.false_eq_true, if_false, Option.getD_some]
      split_ifs with h1 h2
      · exact ⟨(max_eq_left h1.1.le).symm, by simp, by simp⟩
      · exact ⟨(max_eq_right h2.1.le).symm, by simp, by simp⟩
      · exact ⟨rfl, by simp, by simp⟩

/-- C3: every confidence returned by `classify_industry` lies in the
closed interval [0,1], and the keyword score is 0 whenever the token
sequence or the keyword list is empty. -/
theorem classify_industry_confidence_in_unit_interval (a : Analyzer)
    (description : Option String) (stem : String → String)
    (toks kws : List String) :
    (0 ≤ (classify_industry a description).2
      ∧ (classify_industry a description).2 ≤ 1)
    ∧ calculate_keyword_score stem [] kws = 0
    ∧ calculate_keyword_score stem toks [] = 0 := by
  refine ⟨?_, by simp [calculate_keyword_score], by simp [calculate_keyword_score]⟩
  match description with
  | none => simp [classify_industry]
  | some d =>
    by_cases hd : d = ""
    · simp [classify_industry, hd]
    · rw [classify_industry_some_eq a d hd]
      have h1m := calculate_keyword_score_nonneg a.stem
        (preprocess_text a (pyLower d)) medical_keywords
      have h1p := calculate_keyword_score_nonneg a.stem
        (preprocess_text a (pyLower d)) patent_keywords
      have h2m := calculate_keyword_score_le_one a.stem
        (preprocess_text a (pyLower d)) medical_keywords
      have h2p := calculate_keyword_score_le_one a.stem
        (preprocess_text a (pyLower d)) patent_keywords
      split_ifs <;>
        exact ⟨by first | exact h1m | exact h1p | exact le_max_of_le_left h1m,
          by first | exact h2m | exact h2p | exact max_le h2m h2p⟩

/-- C4: the classifier degrades gracefully on missing input, returning
exactly ("unknown", 0.0) for the empty string and for `None`. -/
theorem classify_industry_empty_and_none (a : Analyzer) :
    classify_industry a (some "") = ("unknown", 0)
    ∧ classify_industry a none = ("unknown", 0) := by
  constructor <;> rfl

/-- Evaluating the keyword score from a computed match count and token
count (the division itself is carried out in ℚ). -/
theorem calculate_keyword_score_eval (stem : String → String)
    (toks kws : List String) (m n : ℕ)
    (hm : toks.countP (token_match stem kws) = m) (hn : toks.length = n)
    (htoks : toks ≠ []) (hkws : kws ≠ []) :
    calculate_keyword_score stem toks kws = (m : ℚ) / (n : ℚ) := by
  have h : (toks.isEmpty || kws.isEmpty) = false := by
    cases toks with
    | nil => exact absurd rfl htoks
    | cons t ts =>
      cases kws with
      | nil => exact absurd rfl hkws
      | cons k ks => rfl
  rw [calculate_keyword_score_eq, if_neg (by simp [h]), hm, hn]

/-- Evaluating the mock medical score from a computed match count. -/
theorem mock_medical_score_eval (d : String) (m : ℕ)
    (h : List.countP (fun keyword => pyIn keyword (pyLower d))
      mock_medical_keywords = m) :
    mock_medical_score d = (m : ℚ) / 10 := by
  rw [mock_medical_score, h]
  norm_num [mock_medical_keywords]

/-- Evaluating the mock patent score from a computed match count. -/
theorem mock_patent_score_eval (d : String) (m : ℕ)
    (h : List.countP (fun keyword => pyIn keyword (pyLower d))
      mock_patent_keywords = m) :
    mock_patent_score d = (m : ℚ) / 7 := by
  rw [mock_patent_score, h]
  norm_num [mock_patent_keywords]

/-- Case analysis of the shared decision rule of both classifiers: the
"medical_rd" branch fires exactly when the medical score strictly
dominates and clears the threshold, the "patent_brokerage" branch exactly
when the patent score strictly dominates and clears the threshold; equal
scores land in "other", and a medical score exactly at the threshold never
yields "medical_rd". -/
theorem rule_cases (ms ps T : ℚ) :
    ((if ms > ps ∧ ms > T then (("medical_rd" : String), ms)
      else if ps > ms ∧ ps > T then ("patent_brokerage", ps)
      else ("other", max ms ps)).1 = "medical_rd" ↔ (ms > ps ∧ ms > T))
    ∧ ((if ms > ps ∧ ms > T then (("medical_rd" : String), ms)
      else if ps > ms ∧ ps > T then ("patent_brokerage", ps)
      else ("other", max ms ps)).1 = "patent_brokerage" ↔ (ps > ms ∧ ps > T))
    ∧ (ms = ps →
      (if ms > ps ∧ ms > T then (("medical_rd" : String), ms)
        else if ps > ms ∧ ps > T then ("patent_brokerage", ps)
        else ("other", max ms ps)) = ("other", ms))
    ∧ (ms = T →
      (if ms > ps ∧ ms > T then (("medical_rd" : String), ms)
        else if ps > ms ∧ ps > T then ("patent_brokerage", ps)
        else ("other", max ms ps)).1 ≠ "medical_rd") := by
  split_ifs with h1 h2
  · exact ⟨iff_of_true rfl h1,
      iff_of_false (by simp) (fun hc => lt_asymm h1.1 hc.1),
      fun he => absurd h1.1 (by rw [he]; exact lt_irrefl _),
      fun he => absurd h1.2 (by rw [he]; exact lt_irrefl _)⟩
  · exact ⟨iff_of_false (by simp) h1, iff_of_true rfl h2,
      fun he => absurd h2.1 (by rw [he]; exact lt_irrefl _),
      fun he => by simp⟩
  · exact ⟨iff_of_false (by simp) h1, iff_of_false (by simp) h2,
      fun he => by rw [he, max_self], fun he => by simp⟩

/-- C1 (amended): in both classifiers the patent branch additionally
requires strict dominance of the patent score; equal scores (even both
above THRESHOLD) give "other", and a medical score exactly at THRESHOLD is
never labelled "medical_rd". -/
theorem classify_industry_decision_rule (a : Analyzer) (d : String)
    (hd : d ≠ "") :
    (((classify_industry a (some d)).1 = "medical_rd") ↔
      (medicalScore a d > patentScore a d ∧ medicalScore a d > 3/10))
    ∧ (((classify_industry a (some d)).1 = "patent_brokerage") ↔
      (patentScore a d > medicalScore a d ∧ patentScore a d > 3/10))
    ∧ (medicalScore a d = patentScore a d →
      classify_industry a (some d) = ("other", medicalScore a d))
    ∧ (medicalScore a d = 3/10 →
      (classify_industry a (some d)).1 ≠ "medical_rd")
    ∧ (((mock_classify_industry (some d)).1 = "patent_brokerage") ↔
      (mock_patent_score d > mock_medical_score d
        ∧ mock_patent_score d > 1/10))
    ∧ (mock_medical_score d = mock_patent_score d →
      mock_classify_industry (some d) = ("other", mock_medical_score d)) := by
  have hmain := rule_cases (medicalScore a d) (patentScore a d) (3/10)
  have hmock := rule_cases (mock_medical_score d) (mock_patent_score d) (1/10)
  rw [classify_industry_some_eq a d hd, mock_classify_industry_some_eq d hd]
  exact ⟨hmain.1, hmain.2.1, hmain.2.2.1, hmain.2.2.2,
    hmock.2.1, hmock.2.2.1⟩

/-- A description containing every keyword of both mock keyword lists:
both mock scores are 1. -/
def allKeywordsDescription : String :=
  "biomed clinical trial pharma biotech medical diagnostic therapeutic " ++
  "vaccine drug patent intellectual property ip licensing technology " ++
  "transfer brokerage valuation"

/-- C1 (counterexample): on `allKeywordsDescription` both mock scores are
equal and strictly above THRESHOLD, yet the mock classifier cited by the
claim returns "other", not "patent_brokerage". -/
theorem classify_industry_equal_scores_counterexample :
    mock_medical_score allKeywordsDescription
      = mock_patent_score allKeywordsDescription
    ∧ mock_medical_score allKeywordsDescription > 1/10
    ∧ mock_classify_industry (some allKeywordsDescription) = ("other", 1) := by
  have hm : mock_medical_score allKeywordsDescription = 1 := by
    rw [mock_medical_score_eval allKeywordsDescription 10 (by decide)]
    norm_num
  have hp : mock_patent_score allKeywordsDescription = 1 := by
    rw [mock_patent_score_eval allKeywordsDescription 7 (by decide)]
    norm_num
  refine ⟨by rw [hm, hp], by rw [hm]; norm_num, ?_⟩
  rw [mock_classify_industry_some_eq allKeywordsDescription (by decide),
    hm, hp, if_neg (by norm_num), if_neg (by norm_num), max_self]

/-- C1 (witness for the amended theorem at a concrete input). -/
theorem classify_industry_decision_rule_witness :
    ("vaccine" : String) ≠ ""
    ∧ ((((classify_industry specAnalyzer (some "vaccine")).1 = "medical_rd") ↔
        (medicalScore specAnalyzer "vaccine" > patentScore specAnalyzer "vaccine"
          ∧ medicalScore specAnalyzer "vaccine" > 3/10))
      ∧ (((classify_industry specAnalyzer (some "vaccine")).1 = "patent_brokerage") ↔
        (patentScore specAnalyzer "vaccine" > medicalScore specAnalyzer "vaccine"
          ∧ patentScore specAnalyzer "vaccine" > 3/10))
      ∧ (medicalScore specAnalyzer "vaccine" = patentScore specAnalyzer "vaccine" →
        classify_industry specAnalyzer (some "vaccine")
          = ("other", medicalScore specAnalyzer "vaccine"))
      ∧ (medicalScore specAnalyzer "vaccine" = 3/10 →
        (classify_industry specAnalyzer (some "vaccine")).1 ≠ "medical_rd")
      ∧ (((mock_classify_industry (some "vaccine")).1 = "patent_brokerage") ↔
        (mock_patent_score "vaccine" > mock_medical_score "vaccine"
          ∧ mock_patent_score "vaccine" > 1/10))
      ∧ (mock_medical_score "vaccine" = mock_patent_score "vaccine" →
        mock_classify_industry (some "vaccine")
          = ("other", mock_medical_score "vaccine"))) :=
  ⟨by decide, classify_industry_decision_rule specAnalyzer "vaccine" (by decide)⟩

/-- C5: the scorer implements Variant A of the spec: keywords are lowered
and stemmed with the same stemming rule, a token counts as (at most) one
match when some stemmed keyword contains it or is contained in it, and for
non-empty inputs the score is the number of matched tokens over the total
number of tokens. -/
theorem calculate_keyword_score_variant_a (stem : String → String)
    (toks kws : List String) (htoks : toks ≠ []) (hkws : kws ≠ []) :
    calculate_keyword_score stem toks kws
      = (toks.countP (token_match stem kws) : ℚ) / (toks.length : ℚ) := by
  have h : (toks.isEmpty || kws.isEmpty) = false := by
    cases toks with
    | nil => exact absurd rfl htoks
    | cons t ts =>
      cases kws with
      | nil => exact absurd rfl hkws
      | cons k ks => rfl
  rw [calculate_keyword_score_eq, if_neg (by simp [h])]

/-- C5 (witness at a concrete input). -/
theorem calculate_keyword_score_variant_a_witness :
    (["biotech", "trade"] : List String) ≠ []
    ∧ (["biotech"] : List String) ≠ []
    ∧ calculate_keyword_score id ["biotech", "trade"] ["biotech"]
      = ((["biotech", "trade"] : List String).countP
          (token_match id ["biotech"]) : ℚ)
        / ((["biotech", "trade"] : List String).length : ℚ) :=
  ⟨by decide, by decide,
    calculate_keyword_score_variant_a id ["biotech", "trade"] ["biotech"]
      (by decide) (by decide)⟩

/-- The score `classify_industry` computes for the keyword list of one
category on a raw description. -/
def category_score (a : Analyzer) (keywords : List String) (d : String) : ℚ :=
  calculate_keyword_score a.stem (preprocess_text a (pyLower d)) keywords

/-- C6: appending an exact keyword phrase of a category to a description
whose score for that category is 0 does not decrease that category's
score. -/
theorem category_score_monotone_on_neutral (a : Analyzer)
    (keywords : List String) (d phrase : String) (hmem : phrase ∈ keywords)
    (h0 : category_score a keywords d = 0) :
    category_score a keywords d
      ≤ category_score a keywords (d ++ " " ++ phrase) := by
  rw [h0]
  exact calculate_keyword_score_nonneg a.stem
    (preprocess_text a (pyLower (d ++ " " ++ phrase))) keywords

/-- C6 (witness at a concrete neutral description and keyword). -/
theorem category_score_monotone_on_neutral_witness :
    "vaccine" ∈ medical_keywords
    ∧ category_score specAnalyzer medical_keywords "import export" = 0
    ∧ category_score specAnalyzer medical_keywords "import export"
      ≤ category_score specAnalyzer medical_keywords
          ("import export" ++ " " ++ "vaccine") := by
  have h0 : category_score specAnalyzer medical_keywords "import export" = 0 := by
    rw [category_score, calculate_keyword_score_eval specAnalyzer.stem _
      medical_keywords 0 2 (by decide) (by decide) (by decide) (by decide)]
    norm_num
  exact ⟨by decide, h0,
    category_score_monotone_on_neutral specAnalyzer medical_keywords
      "import export" "vaccine" (by decide) h0⟩

/-- The first end-to-end scenario description of §8. -/
def c7_description : String :=
  "Clinical research and pharmaceutical development focusing on cancer " ++
  "therapeutics and immunology"

/-- C7: the first end-to-end scenario: the clinical-research description is
labelled "medical_rd" with confidence 3/4 > 0.1. -/
theorem classify_industry_scenario_medical :
    classify_industry specAnalyzer (some c7_description) = ("medical_rd", 3/4)
    ∧ ((3 : ℚ)/4 > 1/10) := by
  have hm : medicalScore specAnalyzer c7_description = 3/4 := by
    rw [medicalScore, calculate_keyword_score_eval specAnalyzer.stem _
      medical_keywords 6 8 (by decide) (by decide) (by decide) (by decide)]
    norm_num
  have hp : patentScore specAnalyzer c7_description = 0 := by
    rw [patentScore, calculate_keyword_score_eval specAnalyzer.stem _
      patent_keywords 0 8 (by decide) (by decide) (by decide) (by decide)]
    norm_num
  refine ⟨?_, by norm_num⟩
  rw [classify_industry_some_eq specAnalyzer c7_description (by decide),
    hm, hp, if_pos ⟨by norm_num, by norm_num⟩]

theorem lookupCount_dictIncr (d : List (String × Nat)) (j k : String) :
    lookupCount (dictIncr d j) k
      = lookupCount d k + if j = k then 1 else 0 := by
  induction d with
  | nil => by_cases h : j = k <;> simp [dictIncr, lookupCount, h]
  | cons hd tl ih =>
    obtain ⟨k', v⟩ := hd
    by_cases h1 : k' = j
    · subst h1
      by_cases h2 : k' = k <;> simp [dictIncr, lookupCount, h2]
    · by_cases h2 : k' = k
      · subst h2
        have : ¬(j = k') := fun h => h1 h.symm
        simp [dictIncr, lookupCount, h1, this]
      · simp [dictIncr, lookupCount, h1, h2, ih]

theorem industry_foldl (l : List CompanyRecord) (d : List (String × Nat))
    (k : String) :
    lookupCount
        (l.foldl (fun distribution company =>
          dictIncr distribution (company.classification.getD "unknown")) d) k
      = lookupCount d k
        + l.countP (fun company =>
            company.classification.getD "unknown" == k) := by
  induction l generalizing d with
  | nil => simp
  | cons c cs ih =>
    simp only [List.foldl_cons, List.countP_cons]
    rw [ih, lookupCount_dictIncr]
    by_cases h : c.classification.getD "unknown" = k <;> simp [h] <;> omega

theorem lookupDist_dictIncr2 (d : List (String × List (String × Nat)))
    (loc cls loc' : String) :
    lookupDist (dictIncr2 d loc cls) loc'
      = if loc = loc' then dictIncr (lookupDist d loc') cls
        else lookupDist d loc' := by
  induction d with
  | nil => by_cases h : loc = loc' <;> simp [dictIncr2, lookupDist, h]
  | cons hd tl ih =>
    obtain ⟨l, inner⟩ := hd
    by_cases h1 : l = loc
    · subst h1
      by_cases h2 : l = loc' <;> simp [dictIncr2, lookupDist, h2]
    · by_cases h2 : l = loc'
      · subst h2
        have : ¬(loc = l) := fun h => h1 h.symm
        simp [dictIncr2, lookupDist, h1, this]
      · simp [dictIncr2, lookupDist, h1, h2, ih]

theorem geo_foldl (l : List CompanyRecord)
    (d : List (String × List (String × Nat))) (loc k : String) :
    lookupCount
        (lookupDist
          (l.foldl (fun distribution company =>
            dictIncr2 distribution (company.location.getD "Unknown")
              (company.classification.getD "unknown")) d) loc) k
      = lookupCount (lookupDist d loc) k
        + l.countP (fun company =>
            (company.location.getD "Unknown" == loc)
              && (company.classification.getD "unknown" == k)) := by
  induction l generalizing d with
  | nil => simp
  | cons c cs ih =>
    simp only [List.foldl_cons, List.countP_cons]
    rw [ih, lookupDist_dictIncr2]
    by_cases h1 : c.location.getD "Unknown" = loc
    · rw [if_pos h1, lookupCount_dictIncr]
      by_cases h2 : c.classification.getD "unknown" = k <;>
        simp [h1, h2] <;> omega
    · rw [if_neg h1]
      simp [h1]

/-- Three records classified as medical_rd, medical_rd and
patent_brokerage (the aggregation scenario of §8). -/
def sampleClassified : List CompanyRecord :=
  [{ name := "HKSTP Biotech Accelerator",
     description := some "Incubates 150+ medtech startups",
     business_nature := none, location := some "Science Park, Shatin",
     classification := some "medical_rd", confidence := some (9/10),
     extra := [] },
   { name := "Cirina Limited",
     description := some "cancer early detection technology",
     business_nature := none, location := some "Science Park, Shatin",
     classification := some "medical_rd", confidence := some (1/2),
     extra := [] },
   { name := "Rouse Hong Kong",
     description := some "IP valuation for medtech patents",
     business_nature := none, location := some "Central, Hong Kong",
     classification := some "patent_brokerage", confidence := some (2/5),
     extra := [] }]

/-- C8: the aggregator is a pure count over the classified record
sequence: each label's entry counts the records with that label, each
(location, label) entry counts the records with that location and label;
on the medical_rd, medical_rd, patent_brokerage scenario the distribution
maps medical_rd to 2 and patent_brokerage to 1. -/
theorem analyze_distribution_counts :
    (∀ (companies : List CompanyRecord) (label : String),
      lookupCount (analyze_industry_distribution companies) label
        = companies.countP
            (fun company => company.classification.getD "unknown" == label))
    ∧ (∀ (companies : List CompanyRecord) (loc label : String),
      lookupCount
          (lookupDist (analyze_geographical_distribution companies) loc) label
        = companies.countP
            (fun company => (company.location.getD "Unknown" == loc)
              && (company.classification.getD "unknown" == label)))
    ∧ analyze_industry_distribution sampleClassified
        = [("medical_rd", 2), ("patent_brokerage", 1)] := by
  refine ⟨?_, ?_, by decide⟩
  · intro companies label
    have h := industry_foldl companies [] label
    simpa [analyze_industry_distribution, lookupCount] using h
  · intro companies loc label
    have h := geo_foldl companies [] loc label
    simpa [analyze_geographical_distribution, lookupDist, lookupCount] using h

/-- C9: attaching classification results preserves the number and order of
records and never writes any field other than `classification` and
`confidence`. -/
theorem analyze_market_gaps_frame (a : Analyzer) (l : List CompanyRecord) :
    (analyze_market_gaps_classify a l).length = l.length
    ∧ (analyze_market_gaps_classify a l).map frameFields
        = l.map frameFields := by
  constructor
  · simp [analyze_market_gaps_classify]
  · rw [analyze_market_gaps_classify, List.map_map]
    exact List.map_congr_left (fun c hc => rfl)

/-- A record carrying neither a description nor a business_nature field. -/
def bareRecord : CompanyRecord :=
  { name := "No Fields Ltd", description := none, business_nature := none,
    location := none, classification := none, confidence := none,
    extra := [] }

/-- C10: the batch pipeline classifies `description ++ " " ++
business_nature`, a non-empty string even when both fields are missing, so
it never attaches the label "unknown"; a record with neither field gets
("other", 0.0). -/
theorem analyze_market_gaps_never_unknown :
    (∀ (a : Analyzer) (c : CompanyRecord),
      combined_description c ≠ ""
      ∧ (attach_classification a c).classification ≠ some "unknown"
      ∧ (attach_classification a c).classification.getD "" ∈
          (["medical_rd", "patent_brokerage", "other"] : List String))
    ∧ attach_classification specAnalyzer bareRecord
        = { bareRecord with classification := some "other",
                            confidence := some 0 } := by
  constructor
  · intro a c
    have hne : combined_description c ≠ "" := by
      rw [combined_description]
      intro h
      have hlen := congrArg String.length h
      simp [String.length_append] at hlen
      exact absurd hlen.1.2 (by decide)
    have hmem := classify_industry_label_mem a (combined_description c) hne
    have hcl : (attach_classification a c).classification
        = some (classify_industry a (some (combined_description c))).1 := rfl
    simp only [List.mem_cons, List.not_mem_nil, or_false] at hmem
    rcases hmem with h1 | h1 | h1 <;>
      exact ⟨hne, by simp [hcl, h1], by simp [hcl, h1]⟩
  · have hm : medicalScore specAnalyzer " " = 0 := by
      rw [medicalScore]
      have hpre : preprocess_text specAnalyzer (pyLower " ") = [] := by decide
      rw [hpre]
      simp [calculate_keyword_score]
    have hp : patentScore specAnalyzer " " = 0 := by
      rw [patentScore]
      have hpre : preprocess_text specAnalyzer (pyLower " ") = [] := by decide
      rw [hpre]
      simp [calculate_keyword_score]
    have hc : classify_industry specAnalyzer (some " ") = ("other", 0) := by
      rw [classify_industry_some_eq specAnalyzer " " (by decide), hm, hp,
        if_neg (by norm_num), if_neg (by norm_num), max_self]
    have hcomb : combined_description bareRecord = " " := rfl
    simp only [attach_classification, hcomb, hc]

end CSD
